import Mathlib

/-!
Verification of the token-budget core of the `autonomus-ai-agent` repository:
a shallow embedding, in Lean 4, of

* `contextual_memory_condenser_ai.py` (`ContextualMemoryCondenserAI.condense_information`),
* `token_optimizer_module.py` (`TokenOptimizer.estimate_token_count`),
* `context_manager_module.py` (`ContextManager`),
* `dynamic_prompt_constructor.py` (`DynamicPromptConstructor.build_and_optimize_prompt`),

together with theorems settling the stated properties of those functions.

Python strings are modelled as Lean `String`s (lengths agree: both count
characters).  Python integers are `Int`/`Nat`.  Optional injected tokenizer
functions are `Option (String → Nat)`; an injected function is modelled as
total (a raising tokenizer falls back to the char count in the source and is
not modelled separately).  Python float expressions `int(t * 3.5)`,
`int(t * 3.0)` and the comparison `e > t * 1.2` are modelled by their exact
rational values (`int` truncates toward zero); for the integer arguments
appearing here the float computation agrees with the exact one except for
astronomically large inputs.
-/

namespace AgentCore

/-- Python `s[:n]` (a prefix slice with a possibly negative bound):
for `n ≥ 0` the first `n` characters, for `n < 0` all but the last `-n`
characters (clamped at the empty string). -/
def pySlice (s : String) (n : Int) : String :=
  if 0 ≤ n then String.mk (s.data.take n.toNat)
  else String.mk (s.data.take (s.length - (-n).toNat))

/-- Characters treated as whitespace by `str.strip()` (ASCII fragment). -/
def pyIsSpace (c : Char) : Bool := c.isWhitespace

/-- Python `s.strip()`: remove leading and trailing whitespace. -/
def pyStrip (s : String) : String :=
  String.mk (((s.data.dropWhile pyIsSpace).reverse.dropWhile pyIsSpace).reverse)

/-- Python `int(t * 3.5)` for an integer `t` (truncation toward zero). -/
def pyInt35 (t : Int) : Int :=
  if 0 ≤ t then ((7 * t.toNat) / 2 : Nat) else -(((7 * (-t).toNat) / 2 : Nat))

/-- Python `int(t * 3.0)` for an integer `t`. -/
def pyInt3 (t : Int) : Int := 3 * t

/-- Python `str.capitalize()`: first character uppercased, the rest
lowercased (ASCII-faithful). -/
def pyCapitalize (s : String) : String :=
  match s.data with
  | [] => ""
  | c :: cs => String.mk (c.toUpper :: cs.map Char.toLower)

/-! ## A conversation turn / history item

Both the condenser and the prompt constructor consume lists of dicts of the
shape `{'role': ..., 'content': ...}`; we model those as `Turn`. -/

structure Turn where
  role : String
  content : String
deriving DecidableEq, Repr

end AgentCore

namespace CondenserAI

open AgentCore

/-- `ContextualMemoryCondenserAI._estimate_tokens`: the injected
`tokenizer_func` when present, otherwise the fallback `len(text) // 4`. -/
def condEstimateTokens (tok : Option (String → Nat)) (s : String) : Nat :=
  match tok with
  | some f => f s
  | none => s.length / 4

/-- The `data` argument of `condense_information`: a string, a list of
role/content dicts, or a list of strings. -/
inductive CData where
  | s (t : String)
  | msgs (l : List Turn)
  | lst (l : List String)

/-- Python falsiness of the `data` argument (`if not data`). -/
def cdataFalsy : CData → Bool
  | .s t => t = ""
  | .msgs l => l.isEmpty
  | .lst l => l.isEmpty

/-- The `raw_text_representation` computed by `condense_information`. -/
def rawTextRepresentation : CData → String
  | .s t => t
  | .msgs l => String.intercalate "\n" (l.map fun t => t.role ++ ": " ++ t.content)
  | .lst l => String.intercalate "\n" l

/-- The strategy dispatch of `condense_information`: the initial truncation
of `raw_text_representation` to `int(target * 3.0)` characters (LLM
summarization placeholder, taken when an LLM interface and a truthy
`relevance_query` are present under the default strategy) or
`int(target * 3.5)` characters (simple truncation, also the fallback for an
unknown strategy). -/
def condenseTruncate (hasLLM hasRelevanceQuery : Bool) (strategy : String)
    (raw : String) (targetTokenCount : Int) : String :=
  if strategy = "truncate_or_summarize_placeholder" then
    if hasLLM && hasRelevanceQuery then pySlice raw (pyInt3 targetTokenCount)
    else pySlice raw (pyInt35 targetTokenCount)
  else pySlice raw (pyInt35 targetTokenCount)

/-- The post-truncation check of `condense_information`: when the
re-estimate exceeds `target_token_count * 1.2` (modelled exactly:
`5 * final_estimated_tokens > 6 * target_token_count`), apply the hard
character cut to `int(target * 3.0)` characters. -/
def condenseHardCut (tok : Option (String → Nat)) (targetTokenCount : Int)
    (condensed : String) : String :=
  if 5 * ((condEstimateTokens tok condensed : Nat) : Int) > 6 * targetTokenCount then
    pySlice condensed (pyInt3 targetTokenCount)
  else condensed

/-- `ContextualMemoryCondenserAI.condense_information`.

`hasLLM` models `self.llm_interface is not None`, `hasRelevanceQuery` the
truthiness of `relevance_query`. -/
def condenseInformation (tok : Option (String → Nat)) (hasLLM : Bool)
    ( _informationType : String) (data : CData) (targetTokenCount : Int)
    (hasRelevanceQuery : Bool) (strategy : String) : String :=
  if cdataFalsy data then ""
  else if ((condEstimateTokens tok (rawTextRepresentation data) : Nat) : Int) ≤ targetTokenCount then
    rawTextRepresentation data
  else
    pyStrip (condenseHardCut tok targetTokenCount
      (condenseTruncate hasLLM hasRelevanceQuery strategy
        (rawTextRepresentation data) targetTokenCount))

end CondenserAI

namespace TokenOptimizer

/-- `TokenOptimizer.estimate_token_count` (the placeholder fallback):
`0` on falsy text, otherwise `(len(text) + 3) // 4`. -/
def estimateTokenCount (text : String) : Nat :=
  if text = "" then 0 else (text.length + 3) / 4

end TokenOptimizer

namespace ContextManager

/-- A stored message of `ContextManager.context_history`:
`{"role": ..., "content": ..., "tokens": N}`. -/
structure CMMessage where
  role : String
  content : String
  tokens : Nat
deriving DecidableEq, Repr

/-- The mutable state of a `ContextManager` instance. -/
structure CMState where
  maxTokens : Int
  history : List CMMessage
  currentTotalTokens : Int
deriving DecidableEq, Repr

/-- `ContextManager.__init__`: empty history, zero token total. -/
def initState (maxTokens : Int) : CMState :=
  { maxTokens := maxTokens, history := [], currentTotalTokens := 0 }

/-- `ContextManager._estimate_tokens`: `0` on falsy text, otherwise
`(len(text) + 3) // 4`. -/
def cmEstimateTokens (text : String) : Nat :=
  if text = "" then 0 else (text.length + 3) / 4

/-- The `while` loop of `ContextManager.prune_context_if_needed`:
while `current_total_tokens + additional_tokens_to_add > max_tokens` and the
history is non-empty, pop the message at index 0 and subtract its recorded
token cost.  Returns the remaining history, the new total, and the `pruned`
flag. -/
def pruneLoop (maxTokens additional : Int) :
    List CMMessage → Int → List CMMessage × Int × Bool
  | [], total => ([], total, false)
  | m :: rest, total =>
    if total + additional > maxTokens then
      let r := pruneLoop maxTokens additional rest (total - (m.tokens : Int))
      (r.1, r.2.1, true)
    else (m :: rest, total, false)

/-- `ContextManager.prune_context_if_needed`. -/
def pruneContextIfNeeded (st : CMState) (additionalTokensToAdd : Int) :
    CMState × Bool :=
  ({ st with
     history := (pruneLoop st.maxTokens additionalTokensToAdd st.history st.currentTotalTokens).1,
     currentTotalTokens :=
       (pruneLoop st.maxTokens additionalTokensToAdd st.history st.currentTotalTokens).2.1 },
   (pruneLoop st.maxTokens additionalTokensToAdd st.history st.currentTotalTokens).2.2)

/-- The conditional append at the end of `add_message`: store the message
only if it fits the remaining budget (otherwise only a warning is logged). -/
def attemptAppend (st : CMState) (role content : String) (messageTokens : Nat) : CMState :=
  if st.currentTotalTokens + (messageTokens : Int) ≤ st.maxTokens then
    { st with
      history := st.history ++ [⟨role, content, messageTokens⟩],
      currentTotalTokens := st.currentTotalTokens + (messageTokens : Int) }
  else st

/-- `ContextManager.add_message`: estimate the new message, prune if needed,
then append the message only if it fits the remaining budget. -/
def addMessage (st : CMState) (role content : String) : CMState :=
  attemptAppend (pruneContextIfNeeded st (cmEstimateTokens content : Int)).1
    role content (cmEstimateTokens content)

/-- `ContextManager.get_current_token_count`. -/
def getCurrentTokenCount (st : CMState) : Int := st.currentTotalTokens

/-- A sequence of `add_message(role, content)` calls on a fresh manager. -/
def runAddMessages (maxTokens : Int) (calls : List (String × String)) : CMState :=
  calls.foldl (fun st rc => addMessage st rc.1 rc.2) (initState maxTokens)

end ContextManager

namespace PromptConstructor

open AgentCore

/-- `DynamicPromptConstructor._estimate_tokens`: the injected
`tokenizer_func` when present, otherwise the fallback `len(text) // 4`. -/
def dpcEstimateTokens (tok : Option (String → Nat)) (text : String) : Nat :=
  match tok with
  | some f => f text
  | none => text.length / 4

/-- A value of the `components` dict handed to `build_and_optimize_prompt`:
either a string or a history list of `{'role': ..., 'content': ...}` dicts.
(List-of-string and arbitrary-object component values are outside the
modelled domain.) -/
inductive PComp where
  | s (t : String)
  | hist (l : List Turn)

/-- Python falsiness of a component value (`not components[key]`). -/
def pcompFalsy : PComp → Bool
  | .s t => t = ""
  | .hist l => l.isEmpty

/-- The `components` dict, as its lookup function (`None` = key absent). -/
def Components := String → Option PComp

/-- The default `priority_order`. -/
def defaultPriorityOrder : List String :=
  ["user_query", "system_message", "task_instructions", "history", "retrieved_knowledge"]

/-- The string built for one history turn:
`f"{turn.get('role', 'unknown').capitalize()}: {str(turn.get('content', ''))}\n"`. -/
def turnStr (t : Turn) : String :=
  pyCapitalize t.role ++ ": " ++ t.content ++ "\n"

/-- The inner history loop of `build_and_optimize_prompt`: walk the turns
newest-first (`reversed(component_content)`), prepending each turn string to
the buffer while the estimate of `"\n".join(history_buffer) + turn_str`
still fits in the remaining budget, and stop at the first turn that does
not fit.  `revTurns` is the reversed history list. -/
def historyLoop (tok : Option (String → Nat)) (maxTokens currentTokens : Int) :
    List Turn → List String → List String
  | [], buf => buf
  | t :: ts, buf =>
    let ts_str := turnStr t
    if currentTokens +
        (dpcEstimateTokens tok (String.intercalate "\n" buf ++ ts_str) : Int) ≤ maxTokens then
      historyLoop tok maxTokens currentTokens ts (ts_str :: buf)
    else buf

/-- Python `repr` of a history dict, as produced by `str(turn)` when a
history list appears under a non-`'history'` key (contents without quotes or
escapes assumed). -/
def turnRepr (t : Turn) : String :=
  "\x7b'role': '" ++ t.role ++ "', 'content': '" ++ t.content ++ "'\x7d"

/-- The `temp_prompt_str` computed for one component. -/
def tempPromptStr (tok : Option (String → Nat)) (maxTokens currentTokens : Int)
    (key : String) : PComp → String
  | .s t => t
  | .hist l =>
    if key = "history" then
      let buf := historyLoop tok maxTokens currentTokens l.reverse []
      if buf.isEmpty then "" else String.intercalate "\n" buf
    else String.intercalate "\n" (l.map turnRepr)

/-- The key-dependent formatting applied to `temp_prompt_str`. -/
def formatComponent (key temp : String) : String :=
  if key = "system_message" then temp
  else if key = "user_query" then "User: " ++ temp
  else if key = "task_instructions" then "Instructions: " ++ temp
  else if key = "retrieved_knowledge" then "Context: " ++ temp
  else temp

/-- The loop state of `build_and_optimize_prompt`:
`final_prompt_elements` and `current_tokens`. -/
structure AsmState where
  elements : List String
  currentTokens : Int
deriving Repr

/-- One iteration of the main loop of `build_and_optimize_prompt` over a
key of `priority_order`.  The boolean is `false` exactly when the iteration
executes `break` (the component did not fit). -/
def dpcStep (tok : Option (String → Nat)) (components : Components)
    (maxTokens : Int) (st : AsmState) (key : String) : AsmState × Bool :=
  match components key with
  | none => (st, true)
  | some c =>
    if pcompFalsy c then (st, true)
    else
      let temp := tempPromptStr tok maxTokens st.currentTokens key c
      let formatted := formatComponent key temp
      let componentTokens := dpcEstimateTokens tok (formatted ++ "\n")
      if st.currentTokens + (componentTokens : Int) ≤ maxTokens then
        ({ elements := st.elements ++ [formatted],
           currentTokens := st.currentTokens + (componentTokens : Int) }, true)
      else
        if st.elements.isEmpty ∧ (key = "user_query" ∨ key = "system_message") then
          let availableCharsApprox := (maxTokens - st.currentTokens) * 3
          let truncated := pySlice formatted availableCharsApprox
          ({ elements := st.elements ++ [truncated],
             currentTokens := st.currentTokens +
               (dpcEstimateTokens tok (truncated ++ "\n") : Int) }, false)
        else (st, false)

/-- The main loop of `build_and_optimize_prompt` over `priority_order`. -/
def asmLoop (tok : Option (String → Nat)) (components : Components)
    (maxTokens : Int) : List String → AsmState → AsmState
  | [], st => st
  | key :: rest, st =>
    let r := dpcStep tok components maxTokens st key
    if r.2 then asmLoop tok components maxTokens rest r.1 else r.1

/-- The post-assembly check of `build_and_optimize_prompt`: re-estimate the
joined prompt and, only when no `tokenizer_func` is injected, apply the
final hard character-based truncation to `max_tokens * 3` characters. -/
def dpcPostCheck (tok : Option (String → Nat)) (maxTokens : Int)
    (finalPrompt : String) : String :=
  let finalTokensEstimate := dpcEstimateTokens tok finalPrompt
  if (finalTokensEstimate : Int) > maxTokens then
    if tok.isNone then
      let charsToKeep := maxTokens * 3
      if (finalPrompt.length : Int) > charsToKeep then pySlice finalPrompt charsToKeep
      else finalPrompt
    else finalPrompt
  else finalPrompt

/-- `DynamicPromptConstructor.build_and_optimize_prompt`. -/
def buildAndOptimizePrompt (tok : Option (String → Nat)) (components : Components)
    (maxTokens : Int) (priorityOrder : Option (List String)) : String :=
  let prio := priorityOrder.getD defaultPriorityOrder
  let st := asmLoop tok components maxTokens prio { elements := [], currentTokens := 0 }
  let finalPrompt := pyStrip (String.intercalate "\n\n" st.elements)
  dpcPostCheck tok maxTokens finalPrompt

end PromptConstructor

/-! # Theorems -/

namespace AgentCore

theorem length_mk (l : List Char) : (String.mk l).length = l.length := rfl

theorem length_eq_data_length (s : String) : s.length = s.data.length := rfl

theorem pySlice_length_le (s : String) (n : Int) (hn : 0 ≤ n) :
    (pySlice s n).length ≤ n.toNat := by
  rw [pySlice, if_pos hn, length_mk, List.length_take]
  exact Nat.min_le_left n.toNat s.data.length

theorem pySlice_length_le_self (s : String) (n : Int) :
    (pySlice s n).length ≤ s.length := by
  rw [pySlice, length_eq_data_length]
  split <;> rw [length_mk, List.length_take] <;> omega

theorem pySlice_zero (s : String) : pySlice s 0 = "" := by
  rw [pySlice, if_pos le_rfl]
  rfl

theorem pyStrip_length_le (s : String) : (pyStrip s).length ≤ s.length := by
  rw [pyStrip, length_mk, length_eq_data_length, List.length_reverse]
  calc ((s.data.dropWhile pyIsSpace).reverse.dropWhile pyIsSpace).length
      ≤ (s.data.dropWhile pyIsSpace).reverse.length :=
        (List.dropWhile_sublist _).length_le
    _ = (s.data.dropWhile pyIsSpace).length := List.length_reverse _
    _ ≤ s.data.length := (List.dropWhile_sublist _).length_le

theorem pyStrip_empty : pyStrip "" = "" := rfl

theorem pyInt35_nonneg (t : Int) (ht : 0 ≤ t) : pyInt35 t = ((7 * t.toNat) / 2 : Nat) := by
  rw [pyInt35, if_pos ht]

theorem pyInt3_le_pyInt35 (t : Int) (ht : 0 ≤ t) : pyInt3 t ≤ pyInt35 t := by
  rw [pyInt3, pyInt35_nonneg t ht]
  omega

end AgentCore

namespace CondenserAI

open AgentCore

theorem condEstimateTokens_none (s : String) :
    condEstimateTokens none s = s.length / 4 := rfl

theorem condEstimateTokens_none_mono (s₁ s₂ : String) (h : s₁.length ≤ s₂.length) :
    condEstimateTokens none s₁ ≤ condEstimateTokens none s₂ :=
  Nat.div_le_div_right h

theorem cdataFalsy_rawText (d : CData) (h : cdataFalsy d = true) :
    rawTextRepresentation d = "" := by
  cases d with
  | s t =>
    simp only [cdataFalsy, decide_eq_true_eq] at h
    simpa [rawTextRepresentation] using h
  | msgs l =>
    simp only [cdataFalsy, List.isEmpty_iff] at h
    simp [rawTextRepresentation, h, String.intercalate]
  | lst l =>
    simp only [cdataFalsy, List.isEmpty_iff] at h
    simp [rawTextRepresentation, h, String.intercalate]

theorem condenseTruncate_target_zero (hasLLM hasRel : Bool) (strat raw : String) :
    condenseTruncate hasLLM hasRel strat raw 0 = "" := by
  have e3 : pyInt3 (0 : Int) = 0 := by simp [pyInt3]
  have e35 : pyInt35 (0 : Int) = 0 := by decide
  rw [condenseTruncate]
  split
  · split
    · rw [e3, pySlice_zero]
    · rw [e35, pySlice_zero]
  · rw [e35, pySlice_zero]

theorem condenseHardCut_empty (tok : Option (String → Nat)) :
    condenseHardCut tok 0 "" = "" := by
  rw [condenseHardCut]
  split
  · have e3 : pyInt3 (0 : Int) = 0 := by simp [pyInt3]
    rw [e3, pySlice_zero]
  · rfl

/-- C3 counterexample: the claim "for every source data and every
`target_token_count <= 0`, `condense_information` returns the empty string"
fails at the non-empty string `"ab"` with `target_token_count = 0`: the
fallback estimate of `"ab"` is `2 // 4 = 0 <= 0`, so the data counts as
already condensed and is returned verbatim. -/
theorem condense_nonpositive_target_counterexample :
    condenseInformation none false "document_text" (CData.s "ab") 0 false
        "truncate_or_summarize_placeholder" = "ab" ∧ ("ab" : String) ≠ "" := by
  exact ⟨by decide, by decide⟩

/-- C3 (amended): for `target_token_count = 0`, `condense_information`
returns the empty string whenever the flat text representation's estimated
token count is positive (it never raises; but when the estimate is `0`, the
input text itself is returned, and for negative targets Python's negative
slice bounds generally leave the result non-empty). -/
theorem condense_target_zero_empty (tok : Option (String → Nat)) (hasLLM : Bool)
    (it : String) (d : CData) (hasRel : Bool) (strat : String)
    (h : 0 < condEstimateTokens tok (rawTextRepresentation d)) :
    condenseInformation tok hasLLM it d 0 hasRel strat = "" := by
  have hne : ¬ (((condEstimateTokens tok (rawTextRepresentation d) : Nat) : Int) ≤ (0 : Int)) := by
    exact_mod_cast Nat.not_le.mpr h
  by_cases hf : cdataFalsy d = true
  · rw [condenseInformation, if_pos hf]
  · rw [condenseInformation, if_neg hf, if_neg hne, condenseTruncate_target_zero,
      condenseHardCut_empty, pyStrip_empty]

/-- Witness for `condense_target_zero_empty` at `data = "abcd"`. -/
theorem condense_target_zero_empty_witness :
    0 < condEstimateTokens none (rawTextRepresentation (CData.s "abcd")) ∧
    condenseInformation none false "document_text" (CData.s "abcd") 0 false
        "truncate_or_summarize_placeholder" = "" :=
  ⟨by decide,
   condense_target_zero_empty none false "document_text" (CData.s "abcd") false
     "truncate_or_summarize_placeholder" (by decide)⟩

/-- C4 counterexample: the claim "when the flat text already fits, the
result is the flat text with leading/trailing whitespace stripped" fails at
`data = " abc"`, `target = 1`: the estimate is `4 // 4 = 1 <= 1`, and
`condense_information` returns `" abc"` unstripped (the strip is applied
only on the truncation path). -/
theorem condense_small_input_counterexample :
    condenseInformation none false "document_text" (CData.s " abc") 1 false
        "truncate_or_summarize_placeholder" ≠
      pyStrip (rawTextRepresentation (CData.s " abc")) := by
  decide

/-- C4 (amended): whenever the flat text representation's estimated token
count is `<= target_tokens`, `condense_information` returns the flat text
*unchanged* (no strip, no summarizer, no truncation), and applying the
function a second time to its own output returns that input unchanged
(idempotence). -/
theorem condense_small_input_identity (tok : Option (String → Nat)) (hasLLM : Bool)
    (it : String) (d : CData) (t : Int) (hasRel : Bool) (strat : String)
    (h : ((condEstimateTokens tok (rawTextRepresentation d) : Nat) : Int) ≤ t) :
    condenseInformation tok hasLLM it d t hasRel strat = rawTextRepresentation d ∧
    condenseInformation tok hasLLM it
        (CData.s (condenseInformation tok hasLLM it d t hasRel strat)) t hasRel strat =
      condenseInformation tok hasLLM it d t hasRel strat := by
  have h1 : condenseInformation tok hasLLM it d t hasRel strat = rawTextRepresentation d := by
    by_cases hf : cdataFalsy d = true
    · rw [condenseInformation, if_pos hf]
      exact (cdataFalsy_rawText d hf).symm
    · rw [condenseInformation, if_neg hf, if_pos h]
  refine ⟨h1, ?_⟩
  rw [h1]
  by_cases hr : rawTextRepresentation d = ""
  · rw [hr]
    rfl
  · have hf2 : ¬ (cdataFalsy (CData.s (rawTextRepresentation d)) = true) := by
      simp [cdataFalsy, hr]
    rw [condenseInformation, if_neg hf2]
    have hraw : rawTextRepresentation (CData.s (rawTextRepresentation d)) =
        rawTextRepresentation d := rfl
    rw [hraw, if_pos h]

/-- Witness for `condense_small_input_identity` at `data = "hello"`,
`target = 2`. -/
theorem condense_small_input_identity_witness :
    ((condEstimateTokens none (rawTextRepresentation (CData.s "hello")) : Nat) : Int) ≤ 2 ∧
    (condenseInformation none false "t" (CData.s "hello") 2 false "x" =
        rawTextRepresentation (CData.s "hello") ∧
      condenseInformation none false "t"
          (CData.s (condenseInformation none false "t" (CData.s "hello") 2 false "x")) 2 false "x" =
        condenseInformation none false "t" (CData.s "hello") 2 false "x") :=
  ⟨by decide,
   condense_small_input_identity none false "t" (CData.s "hello") 2 false "x" (by decide)⟩

theorem pyInt3_toNat (t : Int) (ht : 0 ≤ t) : (pyInt3 t).toNat = 3 * t.toNat := by
  rw [pyInt3]
  omega

theorem pyInt35_toNat (t : Int) (ht : 0 ≤ t) : (pyInt35 t).toNat = (7 * t.toNat) / 2 := by
  rw [pyInt35_nonneg t ht]
  exact Int.toNat_natCast _

/-- C9: for every non-empty source whose flat text estimate (fallback
estimator) exceeds a non-negative `target_token_count`, the returned string
has at most `int(target_token_count * 3.5)` characters, and its re-estimated
token count is bounded by `target_token_count * 1.2` (exactly:
`5 * estimate <= 6 * target`), though not by `target_token_count` itself. -/
theorem condense_overflow_bounds (hasLLM : Bool) (it : String) (d : CData)
    (t : Int) (hasRel : Bool) (strat : String)
    (hne : cdataFalsy d = false) (ht : 0 ≤ t)
    (hover : t < ((condEstimateTokens none (rawTextRepresentation d) : Nat) : Int)) :
    ((condenseInformation none hasLLM it d t hasRel strat).length : Int) ≤ pyInt35 t ∧
    5 * ((condEstimateTokens none (condenseInformation none hasLLM it d t hasRel strat) : Nat) : Int)
      ≤ 6 * t := by
  have h35v : pyInt35 t = ((7 * t.toNat) / 2 : Nat) := pyInt35_nonneg t ht
  have h3nn : 0 ≤ pyInt3 t := by rw [pyInt3]; omega
  have h35nn : 0 ≤ pyInt35 t := by rw [h35v]; exact Int.natCast_nonneg _
  have htt : (t.toNat : Int) = t := Int.toNat_of_nonneg ht
  have hresult : condenseInformation none hasLLM it d t hasRel strat =
      pyStrip (condenseHardCut none t
        (condenseTruncate hasLLM hasRel strat (rawTextRepresentation d) t)) := by
    rw [condenseInformation, if_neg (by simp [hne]), if_neg (not_le.mpr hover)]
  set raw := rawTextRepresentation d with hrawdef
  set condensed := condenseTruncate hasLLM hasRel strat raw t with hconddef
  have hlen : condensed.length ≤ (7 * t.toNat) / 2 := by
    rw [hconddef, condenseTruncate]
    have b35 : (pySlice raw (pyInt35 t)).length ≤ (7 * t.toNat) / 2 := by
      have := pySlice_length_le raw (pyInt35 t) h35nn
      rwa [pyInt35_toNat t ht] at this
    have b3 : (pySlice raw (pyInt3 t)).length ≤ (7 * t.toNat) / 2 := by
      have := pySlice_length_le raw (pyInt3 t) h3nn
      rw [pyInt3_toNat t ht] at this
      omega
    split
    · split
      · exact b3
      · exact b35
    · exact b35
  rw [hresult, condenseHardCut]
  split
  · -- the hard character cut was applied
    have hl2 : (pyStrip (pySlice condensed (pyInt3 t))).length ≤ 3 * t.toNat := by
      have h1 := pySlice_length_le condensed (pyInt3 t) h3nn
      rw [pyInt3_toNat t ht] at h1
      exact le_trans (pyStrip_length_le _) h1
    constructor
    · rw [h35v]
      have : (pyStrip (pySlice condensed (pyInt3 t))).length ≤ (7 * t.toNat) / 2 := by omega
      exact_mod_cast this
    · have hest : condEstimateTokens none (pyStrip (pySlice condensed (pyInt3 t))) =
          (pyStrip (pySlice condensed (pyInt3 t))).length / 4 := rfl
      rw [hest]
      omega
  · -- no hard cut: the re-estimate was already within the 1.2 slack
    next hcut =>
    have hle : 5 * ((condEstimateTokens none condensed : Nat) : Int) ≤ 6 * t := by omega
    have hm : condEstimateTokens none (pyStrip condensed) ≤ condEstimateTokens none condensed :=
      condEstimateTokens_none_mono _ _ (pyStrip_length_le condensed)
    constructor
    · rw [h35v]
      have : (pyStrip condensed).length ≤ (7 * t.toNat) / 2 :=
        le_trans (pyStrip_length_le condensed) hlen
      exact_mod_cast this
    · omega

/-- Witness for `condense_overflow_bounds` at `data = "aaaaaaaaaa"`,
`target = 1`. -/
theorem condense_overflow_bounds_witness :
    (cdataFalsy (CData.s "aaaaaaaaaa") = false ∧ (0 : Int) ≤ 1 ∧
      1 < ((condEstimateTokens none (rawTextRepresentation (CData.s "aaaaaaaaaa")) : Nat) : Int)) ∧
    (((condenseInformation none false "doc" (CData.s "aaaaaaaaaa") 1 false
          "truncate_or_summarize_placeholder").length : Int) ≤ pyInt35 1 ∧
      5 * ((condEstimateTokens none (condenseInformation none false "doc"
          (CData.s "aaaaaaaaaa") 1 false "truncate_or_summarize_placeholder") : Nat) : Int) ≤ 6 * 1) :=
  ⟨⟨by decide, by decide, by decide⟩,
   condense_overflow_bounds false "doc" (CData.s "aaaaaaaaaa") 1 false
     "truncate_or_summarize_placeholder" (by decide) (by decide) (by decide)⟩

end CondenserAI

namespace Estimators

theorem natCeil_div_four (l : ℕ) : ⌈(l : ℚ) / 4⌉₊ = (l + 3) / 4 := by
  rcases Nat.eq_zero_or_pos l with h | h
  · subst h
    simp
  · rw [Nat.ceil_eq_iff (by omega : (l + 3) / 4 ≠ 0)]
    constructor
    · rw [lt_div_iff₀ (by norm_num : (0 : ℚ) < 4)]
      have h1 : ((l + 3) / 4 - 1) * 4 < l := by omega
      exact_mod_cast h1
    · rw [div_le_iff₀ (by norm_num : (0 : ℚ) < 4)]
      have h2 : l ≤ ((l + 3) / 4) * 4 := by omega
      exact_mod_cast h2

/-- C5 counterexample: the claim that the `DynamicPromptConstructor`
fallback estimator returns `ceil(len(text)/4)` fails at `text = "a"`:
`len("a") // 4 = 0`, while `ceil(1/4) = 1`. -/
theorem dpc_estimator_not_ceil :
    PromptConstructor.dpcEstimateTokens none "a" ≠ ⌈(("a".length : ℕ) : ℚ) / 4⌉₊ := by
  rw [natCeil_div_four]
  decide

/-- C5 (amended): `TokenOptimizer.estimate_token_count` and
`ContextManager._estimate_tokens` both return exactly `ceil(len(text)/4)`
(`0` on the empty string), while the `DynamicPromptConstructor` fallback
returns `floor(len(text)/4)` (`4 * result <= len < 4 * result + 4`; also
`0` on the empty string), not the ceiling. -/
theorem default_estimators_spec (s : String) :
    (TokenOptimizer.estimateTokenCount s = ⌈((s.length : ℕ) : ℚ) / 4⌉₊ ∧
      ContextManager.cmEstimateTokens s = ⌈((s.length : ℕ) : ℚ) / 4⌉₊) ∧
    (4 * PromptConstructor.dpcEstimateTokens none s ≤ s.length ∧
      s.length < 4 * PromptConstructor.dpcEstimateTokens none s + 4) ∧
    (TokenOptimizer.estimateTokenCount "" = 0 ∧
      ContextManager.cmEstimateTokens "" = 0 ∧
      PromptConstructor.dpcEstimateTokens none "" = 0) := by
  refine ⟨⟨?_, ?_⟩, ⟨?_, ?_⟩, rfl, rfl, rfl⟩
  · rw [natCeil_div_four, TokenOptimizer.estimateTokenCount]
    split
    · next h => subst h; rfl
    · rfl
  · rw [natCeil_div_four, ContextManager.cmEstimateTokens]
    split
    · next h => subst h; rfl
    · rfl
  · have : PromptConstructor.dpcEstimateTokens none s = s.length / 4 := rfl
    rw [this]
    omega
  · have : PromptConstructor.dpcEstimateTokens none s = s.length / 4 := rfl
    rw [this]
    omega

end Estimators

namespace ContextManager

/-- The token sum recorded in a history list. -/
def historyTokens (l : List CMMessage) : Int :=
  (l.map fun m => (m.tokens : Int)).sum

theorem historyTokens_nil : historyTokens [] = 0 := rfl

theorem historyTokens_cons (m : CMMessage) (l : List CMMessage) :
    historyTokens (m :: l) = (m.tokens : Int) + historyTokens l := by
  simp [historyTokens]

theorem historyTokens_append_singleton (l : List CMMessage) (m : CMMessage) :
    historyTokens (l ++ [m]) = historyTokens l + (m.tokens : Int) := by
  simp [historyTokens]

theorem historyTokens_nonneg (l : List CMMessage) : 0 ≤ historyTokens l := by
  induction l with
  | nil => simp [historyTokens]
  | cons m rest ih => rw [historyTokens_cons]; positivity

/-- The representation invariant of `ContextManager`:
`current_total_tokens` is the sum of the recorded costs of the stored
messages. -/
def TotalsOk (st : CMState) : Prop :=
  st.currentTotalTokens = historyTokens st.history

theorem pruneLoop_totals (maxT add : Int) (l : List CMMessage) (total : Int)
    (h : total = historyTokens l) :
    (pruneLoop maxT add l total).2.1 = historyTokens (pruneLoop maxT add l total).1 := by
  induction l generalizing total with
  | nil => simpa [pruneLoop, historyTokens_nil] using h
  | cons m rest ih =>
    rw [pruneLoop]
    split
    · exact ih (total - (m.tokens : Int)) (by rw [h, historyTokens_cons]; ring)
    · exact h

theorem pruneLoop_post (maxT add : Int) (l : List CMMessage) (total : Int) :
    (pruneLoop maxT add l total).2.1 + add ≤ maxT ∨ (pruneLoop maxT add l total).1 = [] := by
  induction l generalizing total with
  | nil => exact Or.inr rfl
  | cons m rest ih =>
    rw [pruneLoop]
    split
    · exact ih (total - (m.tokens : Int))
    · next hc =>
      left
      show total + add ≤ maxT
      omega

theorem pruneLoop_suffix (maxT add : Int) (l : List CMMessage) (total : Int) :
    (pruneLoop maxT add l total).1 <:+ l := by
  induction l generalizing total with
  | nil => exact List.nil_suffix
  | cons m rest ih =>
    rw [pruneLoop]
    split
    · exact (ih (total - (m.tokens : Int))).trans (List.suffix_cons m rest)
    · exact List.suffix_refl _

theorem pruneContextIfNeeded_totals (st : CMState) (a : Int) (h : TotalsOk st) :
    TotalsOk (pruneContextIfNeeded st a).1 :=
  pruneLoop_totals st.maxTokens a st.history st.currentTotalTokens h

theorem addMessage_preserves (st : CMState) (role content : String) (h : TotalsOk st) :
    TotalsOk (addMessage st role content) ∧
    (addMessage st role content).maxTokens = st.maxTokens ∧
    (0 ≤ st.maxTokens →
      (addMessage st role content).currentTotalTokens ≤ st.maxTokens) := by
  have hpr : TotalsOk (pruneContextIfNeeded st (cmEstimateTokens content : Int)).1 :=
    pruneContextIfNeeded_totals st _ h
  have hpost := pruneLoop_post st.maxTokens (cmEstimateTokens content : Int)
    st.history st.currentTotalTokens
  rw [addMessage, attemptAppend]
  split
  · next hfits =>
    refine ⟨?_, rfl, fun hmax => ?_⟩
    · unfold TotalsOk at hpr ⊢
      simp only [pruneContextIfNeeded] at hpr ⊢
      rw [historyTokens_append_singleton, ← hpr]
    · simpa [pruneContextIfNeeded] using hfits
  · next hfits =>
    refine ⟨hpr, rfl, fun hmax => ?_⟩
    simp only [pruneContextIfNeeded] at hpr hfits ⊢
    rcases hpost with hle | hemp
    · omega
    · unfold TotalsOk at hpr
      simp only [pruneContextIfNeeded] at hpr
      rw [hpr, hemp, historyTokens_nil]
      exact hmax

theorem runAddMessages_invariant (maxTokens : Int) (calls : List (String × String)) :
    TotalsOk (runAddMessages maxTokens calls) ∧
    (runAddMessages maxTokens calls).maxTokens = maxTokens := by
  induction calls using List.reverseRecOn with
  | nil => exact ⟨rfl, rfl⟩
  | append_singleton l rc ih =>
    have h := addMessage_preserves (runAddMessages maxTokens l) rc.1 rc.2 ih.1
    have hrun : runAddMessages maxTokens (l ++ [rc]) =
        addMessage (runAddMessages maxTokens l) rc.1 rc.2 := by
      rw [runAddMessages, runAddMessages, List.foldl_append, List.foldl_cons, List.foldl_nil]
    rw [hrun]
    exact ⟨h.1, by rw [h.2.1, ih.2]⟩

/-- C2: on a manager with `max_tokens >= 0`, after every sequence of
`add_message` calls the current token count is `<= max_tokens`; and a single
message whose estimated cost alone exceeds `max_tokens`, added to the empty
store, is rejected: the state (empty store, count 0) is unchanged and no
exception is raised. -/
theorem contextManager_token_bound (maxTokens : Int) (hmax : 0 ≤ maxTokens) :
    (∀ calls : List (String × String),
      getCurrentTokenCount (runAddMessages maxTokens calls) ≤ maxTokens) ∧
    (∀ role content : String, maxTokens < (cmEstimateTokens content : Int) →
      addMessage (initState maxTokens) role content = initState maxTokens) := by
  constructor
  · intro calls
    rcases List.eq_nil_or_concat calls with h | ⟨l, rc, h⟩
    · subst h
      simpa [runAddMessages, getCurrentTokenCount, initState] using hmax
    · rw [List.concat_eq_append] at h
      subst h
      have hinv := runAddMessages_invariant maxTokens l
      have h := addMessage_preserves (runAddMessages maxTokens l) rc.1 rc.2 hinv.1
      have hrun : runAddMessages maxTokens (l ++ [rc]) =
          addMessage (runAddMessages maxTokens l) rc.1 rc.2 := by
        rw [runAddMessages, runAddMessages, List.foldl_append, List.foldl_cons, List.foldl_nil]
      rw [getCurrentTokenCount, hrun]
      have hb := h.2.2 (by rw [hinv.2]; exact hmax)
      rw [hinv.2] at hb
      exact hb
  · intro role content hbig
    have hpr : (pruneContextIfNeeded (initState maxTokens)
        ((cmEstimateTokens content : Nat) : Int)).1 = initState maxTokens := rfl
    rw [addMessage, hpr, attemptAppend,
      if_neg (by simp only [initState]; omega)]

/-- Witness for `contextManager_token_bound` at `max_tokens = 10`. -/
theorem contextManager_token_bound_witness :
    (0 : Int) ≤ 10 ∧
    ((∀ calls : List (String × String),
        getCurrentTokenCount (runAddMessages 10 calls) ≤ 10) ∧
      (∀ role content : String, (10 : Int) < (cmEstimateTokens content : Int) →
        addMessage (initState 10) role content = initState 10)) :=
  ⟨by decide, contextManager_token_bound 10 (by decide)⟩

/-- C6: eviction is strictly FIFO.  The pruned history is a suffix of the
original (only oldest-first removals); one loop iteration under the guard
removes exactly the index-0 message, subtracting its recorded cost; and when
exactly one of three messages `m1, m2, m3` is evicted, it is `m1`. -/
theorem prune_fifo (maxT add : Int) (l : List CMMessage) (total : Int) :
    ((pruneLoop maxT add l total).1 <:+ l) ∧
    (∀ m rest, l = m :: rest → total + add > maxT →
      pruneLoop maxT add l total =
        ((pruneLoop maxT add rest (total - (m.tokens : Int))).1,
          (pruneLoop maxT add rest (total - (m.tokens : Int))).2.1, true)) ∧
    (∀ m1 m2 m3, l = [m1, m2, m3] → (pruneLoop maxT add l total).1.length = 2 →
      (pruneLoop maxT add l total).1 = [m2, m3]) := by
  refine ⟨pruneLoop_suffix maxT add l total, ?_, ?_⟩
  · intro m rest hl hc
    subst hl
    rw [pruneLoop, if_pos hc]
  · intro m1 m2 m3 hl hlen
    subst hl
    obtain ⟨t, ht⟩ := pruneLoop_suffix maxT add [m1, m2, m3] total
    cases t with
    | nil =>
      simp only [List.nil_append] at ht
      rw [ht] at hlen
      simp at hlen
    | cons x t' =>
      cases t' with
      | nil =>
        simp only [List.cons_append, List.nil_append, List.cons.injEq] at ht
        exact ht.2
      | cons y t'' =>
        have hlt := congrArg List.length ht
        simp at hlt
        omega

/-- Witness for `prune_fifo`, replaying the module's own example: history
`[Hello(2), World(2), This is a test(4)]` with total 8, adding 3 against
`max_tokens = 10` evicts exactly the oldest message. -/
theorem prune_fifo_witness :
    ((pruneLoop 10 3 [⟨"user", "Hello", 2⟩, ⟨"assistant", "World", 2⟩,
        ⟨"user", "This is a test", 4⟩] 8).1.length = 2) ∧
    (pruneLoop 10 3 [⟨"user", "Hello", 2⟩, ⟨"assistant", "World", 2⟩,
        ⟨"user", "This is a test", 4⟩] 8).1 =
      [⟨"assistant", "World", 2⟩, ⟨"user", "This is a test", 4⟩] :=
  ⟨by decide,
   (prune_fifo 10 3 [⟨"user", "Hello", 2⟩, ⟨"assistant", "World", 2⟩,
       ⟨"user", "This is a test", 4⟩] 8).2.2
     ⟨"user", "Hello", 2⟩ ⟨"assistant", "World", 2⟩ ⟨"user", "This is a test", 4⟩
     rfl (by decide)⟩

theorem pruneLoop_pruned_iff (maxT a : Int) (l : List CMMessage) (total : Int) :
    (pruneLoop maxT a l total).2.2 = true ↔
      (pruneLoop maxT a l total).1.length < l.length := by
  induction l generalizing total with
  | nil =>
    rw [pruneLoop]
    simp
  | cons m rest ih =>
    rw [pruneLoop]
    split
    · have hs := (pruneLoop_suffix maxT a rest (total - (m.tokens : Int))).length_le
      refine ⟨fun _ => ?_, fun _ => rfl⟩
      show (pruneLoop maxT a rest (total - (m.tokens : Int))).1.length < (m :: rest).length
      simp only [List.length_cons]
      omega
    · simp

/-- C10: `prune_context_if_needed` terminates on every state (it is a total
function of the finite history list), never raises, and returns `True`
exactly when at least one message was removed from the history. -/
theorem pruneContextIfNeeded_pruned_iff (st : CMState) (a : Int) :
    (pruneContextIfNeeded st a).2 = true ↔
      (pruneContextIfNeeded st a).1.history.length < st.history.length := by
  rw [pruneContextIfNeeded]
  exact pruneLoop_pruned_iff st.maxTokens a st.history st.currentTotalTokens

end ContextManager

namespace PromptConstructor

open AgentCore

theorem dpcEstimateTokens_none (s : String) :
    dpcEstimateTokens none s = s.length / 4 := rfl

theorem dpcPostCheck_none_bound (s : String) (m : Int) (hm : 0 ≤ m) :
    ((dpcEstimateTokens none (dpcPostCheck none m s) : Nat) : Int) ≤ m := by
  rw [dpcPostCheck]
  split
  · next hgt =>
    simp only [Option.isNone_none, if_true]
    split
    · next hlen =>
      have h1 := pySlice_length_le s (m * 3) (by omega)
      rw [dpcEstimateTokens_none]
      omega
    · next hlen =>
      rw [dpcEstimateTokens_none]
      rw [dpcEstimateTokens_none] at hgt
      omega
  · next hle => omega

/-- C1 counterexample: with an injected `tokenizer_func` the final hard
truncation is skipped entirely (`if self.tokenizer_func is None`), so the
returned prompt's re-estimate can exceed `max_tokens`: with the
character-count tokenizer and a long critical `user_query` against
`max_tokens = 3`, the truncated critical component alone re-estimates to 9
tokens. -/
theorem buildAndOptimizePrompt_tokenizer_counterexample :
    3 < ((dpcEstimateTokens (some String.length)
      (buildAndOptimizePrompt (some String.length)
        (fun k => if k = "user_query" then some (PComp.s "aaaaaaaaaaaaaaaaaaaa") else none)
        3 none) : Nat) : Int) := by
  decide

/-- C1 (amended): the final hard character-based truncation is applied only
when no `tokenizer_func` is injected; in that fallback case, for every
components map, priority order and `max_tokens >= 0`, the returned prompt's
re-estimated token cost is `<= max_tokens`.  With an injected tokenizer the
truncation is skipped and the bound can fail (see the counterexample). -/
theorem buildAndOptimizePrompt_fallback_bound (components : Components)
    (maxTokens : Int) (priorityOrder : Option (List String)) (hmax : 0 ≤ maxTokens) :
    ((dpcEstimateTokens none
        (buildAndOptimizePrompt none components maxTokens priorityOrder) : Nat) : Int)
      ≤ maxTokens := by
  rw [buildAndOptimizePrompt]
  exact dpcPostCheck_none_bound _ maxTokens hmax

/-- Witness for `buildAndOptimizePrompt_fallback_bound` on a concrete
components map at `max_tokens = 3`. -/
theorem buildAndOptimizePrompt_fallback_bound_witness :
    (0 : Int) ≤ 3 ∧
    ((dpcEstimateTokens none
        (buildAndOptimizePrompt none
          (fun k => if k = "user_query" then some (PComp.s "aaaaaaaaaaaaaaaaaaaa") else none)
          3 none) : Nat) : Int) ≤ 3 :=
  ⟨by decide,
   buildAndOptimizePrompt_fallback_bound
     (fun k => if k = "user_query" then some (PComp.s "aaaaaaaaaaaaaaaaaaaa") else none)
     3 none (by decide)⟩

/-- C7: processing stops at the first overflow.  If the iteration for `key`
reports `break` (its component did not fit the remaining budget), then every
later key of `priority_order` is ignored: the loop's result on
`key :: rest` equals its result on `[key]` alone, so no lower-priority
component can appear after a higher-priority one was omitted. -/
theorem asmLoop_stops_after_overflow (tok : Option (String → Nat))
    (components : Components) (maxTokens : Int) (key : String)
    (rest : List String) (st : AsmState)
    (h : (dpcStep tok components maxTokens st key).2 = false) :
    asmLoop tok components maxTokens (key :: rest) st =
      asmLoop tok components maxTokens [key] st := by
  rw [asmLoop, asmLoop, h]
  simp

/-- Witness for `asmLoop_stops_after_overflow`: a 30-character
`task_instructions` component against `max_tokens = 1` does not fit (and is
not critical), so the following `user_query` key is never processed. -/
theorem asmLoop_stops_after_overflow_witness :
    ((dpcStep none
        (fun k => if k = "task_instructions"
          then some (PComp.s "aaaaaaaaaaaaaaaaaaaaaaaaaaaaaa") else none)
        1 { elements := [], currentTokens := 0 } "task_instructions").2 = false) ∧
    asmLoop none
        (fun k => if k = "task_instructions"
          then some (PComp.s "aaaaaaaaaaaaaaaaaaaaaaaaaaaaaa") else none)
        1 ["task_instructions", "user_query"] { elements := [], currentTokens := 0 } =
      asmLoop none
        (fun k => if k = "task_instructions"
          then some (PComp.s "aaaaaaaaaaaaaaaaaaaaaaaaaaaaaa") else none)
        1 ["task_instructions"] { elements := [], currentTokens := 0 } :=
  ⟨by decide,
   asmLoop_stops_after_overflow none
     (fun k => if k = "task_instructions"
       then some (PComp.s "aaaaaaaaaaaaaaaaaaaaaaaaaaaaaa") else none)
     1 "task_instructions" ["user_query"] { elements := [], currentTokens := 0 }
     (by decide)⟩

/-- C8: `build_and_optimize_prompt` is deterministic: two calls with equal
`components`, `max_tokens`, `priority_order` and the same (deterministic)
`tokenizer_func` return identical prompt strings (the function consults no
randomness or clock). -/
theorem buildAndOptimizePrompt_deterministic (tok tok' : Option (String → Nat))
    (c c' : Components) (m m' : Int) (p p' : Option (List String))
    (htok : tok = tok') (hc : c = c') (hm : m = m') (hp : p = p') :
    buildAndOptimizePrompt tok c m p = buildAndOptimizePrompt tok' c' m' p' := by
  subst htok
  subst hc
  subst hm
  subst hp
  rfl

/-- Witness for `buildAndOptimizePrompt_deterministic` at a concrete call. -/
theorem buildAndOptimizePrompt_deterministic_witness :
    (some String.length = some String.length) ∧
    (((fun k => if k = "user_query" then some (PComp.s "hi") else none) : Components) =
      ((fun k => if k = "user_query" then some (PComp.s "hi") else none) : Components)) ∧
    ((5 : Int) = 5) ∧ ((none : Option (List String)) = none) ∧
    buildAndOptimizePrompt (some String.length)
        (fun k => if k = "user_query" then some (PComp.s "hi") else none) 5 none =
      buildAndOptimizePrompt (some String.length)
        (fun k => if k = "user_query" then some (PComp.s "hi") else none) 5 none :=
  ⟨rfl, rfl, rfl, rfl,
   buildAndOptimizePrompt_deterministic (some String.length) (some String.length)
     (fun k => if k = "user_query" then some (PComp.s "hi") else none)
     (fun k => if k = "user_query" then some (PComp.s "hi") else none)
     5 5 none none rfl rfl rfl rfl⟩

end PromptConstructor
